import Mathlib

/-!
# Verification of `SimpleVector` (cpp-simple-vector)

Shallow embedding of `ArrayPtr<Type>` / `SimpleVector<Type>`
(`simple_vector.h` = `src/unnamed/part_000`) and proofs about the
container's public operations.

Modelling conventions:

* `buffer` is the list of slot contents of the heap block currently owned
  by `items_`.  Its length is the allocated slot count of that block.
  `ArrayPtr(0)` and the default `ArrayPtr` hold a null pointer, so a null
  `raw_ptr_` corresponds exactly to `buffer = []`.
* `size` / `capacity` model the `size_` / `capacity_` fields.  `size_t`
  arithmetic is modelled on `Nat`; where a wrap-around of `size_t` is
  actually reachable (the `--size_` in `Erase`) the reduction
  `% 2 ^ 64` is written out explicitly.
* `gen` is a buffer-identity generation: it is bumped every time
  `items_.swap(temp)` installs a freshly allocated block (a reallocation).
  A raw pointer `begin() + i` is modelled as a `Handle` carrying the
  generation of the buffer it points into together with the offset `i`;
  a handle refers into the vector's *current* buffer iff its generation
  equals the vector's current `gen`.
* `new Type[n]` default-initialises its elements; dead slots of a fresh
  block are modelled as holding `default`.  A moved-from element is
  likewise modelled as `default` (for the claims below only sizes,
  capacities and live values matter, never moved-from slot contents).
* `std::copy` / `std::move` / `std::copy_backward` / `std::move_backward`
  over pointer ranges are modelled by `writeSeq` (write a list of values
  at consecutive indices); the backward variants read the source range
  before any of its slots are overwritten, which is exactly what writing
  the pre-state values expresses.  A call on a reversed range
  (`last < first`, reachable in `Erase(end())`) is undefined behaviour in
  C++; the model copies `last - first` truncated at zero elements, which
  is what the random-access `std::move` of the host implementation does.
-/

namespace SimpleVec

/-- Write the values of `src` into `buf` at consecutive indices
`d, d+1, …` (a write at an index `≥ buf.length` is dropped; the
operations below only produce such writes where the C++ writes out of
bounds, which is tracked separately by the `…Writes` functions).
Models `std::copy`/`std::move` of a range into a buffer at offset `d`. -/
def writeSeq {α : Type} : List α → Nat → List α → List α
  | buf, _, [] => buf
  | buf, d, x :: xs => writeSeq (buf.set d x) (d + 1) xs

/-- Assign `x` to the slots `[first, last)` of `buf`: models the pointer
loop of `std::fill` and of the private member `fill` (which assigns
`std::move(Type())`, i.e. the default value). -/
def fillRange {α : Type} (buf : List α) (first last : Nat) (x : α) : List α :=
  writeSeq buf first (List.replicate (last - first) x)

/-- Model of a raw position handle (`Iterator` = `Type*`): the generation
of the buffer the pointer points into, plus its offset from `begin()`. -/
structure Handle where
  gen : Nat
  idx : Nat
deriving DecidableEq

/-- Model of `SimpleVector<Type>`: the owned block's slot contents, the
`size_` and `capacity_` fields, and the buffer-identity generation. -/
structure SV (α : Type) where
  buffer : List α
  size : Nat
  capacity : Nat
  gen : Nat
deriving DecidableEq

variable {α : Type} [Inhabited α]

/-- The live elements, positions `[0, size)` of the buffer. -/
def live (v : SV α) : List α := v.buffer.take v.size

/-- Well-formedness used as a hypothesis of the general theorems:
`size_ ≤ capacity_` and `capacity_` does not exceed the allocated length
of the owned block.  (Both hold for vectors built by the constructors,
but the copy constructor below violates the first part.) -/
def Wf (v : SV α) : Prop := v.size ≤ v.capacity ∧ v.capacity ≤ v.buffer.length

instance (v : SV α) : Decidable (Wf v) := by unfold Wf; infer_instance

/-- `SimpleVector() = default`: null buffer, `size_ = capacity_ = 0`. -/
def emptySV : SV α := ⟨[], 0, 0, 0⟩

/-- The `std::initializer_list` constructor: allocates `init.size()`
slots, sets `size_ = capacity_ = init.size()`, and `std::copy`s the list
into the fresh block. -/
def fromList (init : List α) : SV α :=
  { buffer := writeSeq (List.replicate init.length default) 0 init
    size := init.length
    capacity := init.length
    gen := 0 }

/-- The copy constructor
`SimpleVector(const SimpleVector& other) : items_(other.capacity_), size_(other.size_)`:
allocates `other.capacity_` slots and copies the live elements across.
`capacity_` is *not* in the member-initializer list, so its default
member initializer `= 0` applies: the copy's `capacity_` field is `0`. -/
def copyCtor (other : SV α) : SV α :=
  { buffer := writeSeq (List.replicate other.capacity default) 0 (live other)
    size := other.size
    capacity := 0
    gen := 0 }

/-- Element copy-assignments performed by the copy constructor:
`std::copy` copies each of the `other.size_` live elements. -/
def copyCtorElemCopies (other : SV α) : Nat := other.size

/-- The move constructor
`SimpleVector(SimpleVector&& other) : items_(other.capacity_)`:
allocates a fresh block of `other.capacity_` slots (held by `this`, whose
`size_`/`capacity_` stay at their default `0`), then `swap(other)`.
Returns (the new vector, the source after the swap). -/
def moveCtor (other : SV α) : SV α × SV α :=
  ({ buffer := other.buffer, size := other.size, capacity := other.capacity
     gen := other.gen },
   { buffer := List.replicate other.capacity default, size := 0, capacity := 0
     gen := other.gen + 1 })

/-- Element copies performed by the move constructor: none (the transfer
is a pointer/field swap, no element-level work). -/
def moveCtorElemCopies : Nat := 0

/-- `operator=(SimpleVector&& rhs)` (non-self case): builds
`ArrayPtr<Type> temp(rhs.GetCapacity())`, `std::move`s the live elements
of `rhs` into it, swaps it into `items_`, then sets
`size_ = rhs.GetSize()` and `capacity_ = rhs.GetCapacity()`.
`rhs.size_` and `rhs.capacity_` are never modified; only its elements
are left moved-from (modelled as `default`).
Returns (the assigned-to vector, the source after the assignment). -/
def moveAssign (lhs rhs : SV α) : SV α × SV α :=
  ({ buffer := writeSeq (List.replicate rhs.capacity default) 0 (live rhs)
     size := rhs.size, capacity := rhs.capacity, gen := lhs.gen + 1 },
   { rhs with buffer := fillRange rhs.buffer 0 rhs.size default })

/-- Element copies performed by move-assignment: none (`std::move`
performs element move-assignments, not copies). -/
def moveAssignElemCopies : Nat := 0

/-- `At(size_t index)`: throws `std::out_of_range` when `index >= size_`,
otherwise returns `items_[index]`.  The member function mutates nothing,
so the vector is returned unchanged alongside the outcome. -/
def At (v : SV α) (index : Nat) : Except String α × SV α :=
  if index ≥ v.size then (Except.error "index >= size", v)
  else (Except.ok (v.buffer.getD index default), v)

/-- `Clear()`: sets `size_ = 0`, touching nothing else. -/
def Clear (v : SV α) : SV α := { v with size := 0 }

/-- `Resize(new_size)`.  The three cases in the source are consecutive
`if` statements (not an `if`/`else if` chain) on the mutated state:
1. `if (new_size <= size_) size_ = new_size;`
2. `if (new_size <= capacity_) { fill(begin() + size_, begin() + size_ + new_size); size_ = new_size; }`
3. `if (new_size > capacity_) { … reallocate, fill the whole new block,
   move `capacity_` elements across, update both fields … }`.
Note in step 3 the source `std::move`s `begin() … begin() + capacity_`,
i.e. `capacity_` elements, not `size_`. -/
def Resize (v : SV α) (new_size : Nat) : SV α :=
  let s1 := if new_size ≤ v.size then { v with size := new_size } else v
  let s2 :=
    if new_size ≤ s1.capacity then
      { s1 with buffer := fillRange s1.buffer s1.size (s1.size + new_size) default
                size := new_size }
    else s1
  if new_size > s2.capacity then
    let new_capacity := max new_size (s2.capacity * 2)
    let temp := fillRange (List.replicate new_capacity default) 0 new_capacity default
    let temp2 := writeSeq temp 0 (s2.buffer.take s2.capacity)
    { buffer := temp2, size := new_size, capacity := new_capacity, gen := s2.gen + 1 }
  else s2

/-- The element-slot writes performed by `Resize(new_size)`, as pairs
`(index written, allocated length of the block written into)`, read off
the same source lines as `Resize`:
step 2 writes the `new_size` slots from `begin() + size_` on into the
*current* block; step 3 writes `[0, new_capacity)` twice (the `fill` and
the `std::move` of `capacity_` elements) into the *fresh* block. -/
def resizeWrites (v : SV α) (new_size : Nat) : List (Nat × Nat) :=
  let s1size := if new_size ≤ v.size then new_size else v.size
  let w2 :=
    if new_size ≤ v.capacity then
      (List.range' s1size new_size).map (fun i => (i, v.buffer.length))
    else []
  let w3 :=
    if new_size > v.capacity then
      let new_capacity := max new_size (v.capacity * 2)
      ((List.range' 0 new_capacity).map (fun i => (i, new_capacity))) ++
        ((List.range' 0 v.capacity).map (fun i => (i, new_capacity)))
    else []
  w2 ++ w3

/-- `Insert(ConstIterator pos, const Type& value)` (copying overload),
with `index = std::distance(cbegin(), pos)`.
If `capacity_ > size_`: `std::copy_backward(pos, end(), end() + 1)`
shifts `[index, size_)` one slot right, then `items_[index] = value`.
Otherwise: reallocate to `capacity_ == 0 ? 1 : capacity_ * 2`, copy
`[0, index)`, place `value` at `index`, copy `[index, size_)` behind it,
swap the block in.  In *both* branches the function returns
`const_cast<Iterator>(pos)` — the caller's incoming pointer, which after
a reallocation still points into the discarded block. -/
def insertCopy (v : SV α) (pos : Handle) (value : α) : SV α × Handle :=
  let index := pos.idx
  if v.capacity > v.size then
    let shifted := writeSeq v.buffer (index + 1) ((v.buffer.drop index).take (v.size - index))
    ({ v with buffer := shifted.set index value, size := v.size + 1 }, pos)
  else
    let new_capacity := if v.capacity = 0 then 1 else v.capacity * 2
    let temp := writeSeq (List.replicate new_capacity default) 0 (v.buffer.take index)
    let temp2 := temp.set index value
    let temp3 := writeSeq temp2 (index + 1) ((v.buffer.drop index).take (v.size - index))
    ({ buffer := temp3, size := v.size + 1, capacity := new_capacity, gen := v.gen + 1 },
     pos)

/-- `Insert(ConstIterator pos, Type&& value)` (moving overload): same
shifting/reallocation as the copying overload but with `std::move`s, and
it returns `begin() + index` — a pointer into the *current* buffer. -/
def insertMove (v : SV α) (pos : Handle) (value : α) : SV α × Handle :=
  let index := pos.idx
  if v.capacity > v.size then
    let shifted := writeSeq v.buffer (index + 1) ((v.buffer.drop index).take (v.size - index))
    ({ v with buffer := shifted.set index value, size := v.size + 1 },
     ⟨v.gen, index⟩)
  else
    let new_capacity := if v.capacity = 0 then 1 else v.capacity * 2
    let temp := writeSeq (List.replicate new_capacity default) 0 (v.buffer.take index)
    let temp2 := temp.set index value
    let temp3 := writeSeq temp2 (index + 1) ((v.buffer.drop index).take (v.size - index))
    ({ buffer := temp3, size := v.size + 1, capacity := new_capacity, gen := v.gen + 1 },
     ⟨v.gen + 1, index⟩)

/-- `PushBack(const Type& item)`: if `size_ + 1 > capacity_`, grow to
`std::max(size_ + 1, capacity_ * 2)` — `std::fill` the whole fresh block
with `Type()` and `std::copy` the `size_` live elements in — then
`items_[size_] = item; ++size_;`. -/
def pushBackCopy (v : SV α) (item : α) : SV α :=
  if v.size + 1 > v.capacity then
    let new_capacity := max (v.size + 1) (v.capacity * 2)
    let temp := fillRange (List.replicate new_capacity default) 0 new_capacity default
    let temp2 := writeSeq temp 0 (v.buffer.take v.size)
    { buffer := temp2.set v.size item, size := v.size + 1, capacity := new_capacity
      gen := v.gen + 1 }
  else
    { v with buffer := v.buffer.set v.size item, size := v.size + 1 }

/-- `PushBack(Type&& item)`: as the copying overload, but the fresh block
is not `std::fill`ed (its slots are default-initialised by `new Type[n]`)
and the live elements are `std::move`d in. -/
def pushBackMove (v : SV α) (item : α) : SV α :=
  if v.size + 1 > v.capacity then
    let new_capacity := max (v.size + 1) (v.capacity * 2)
    let temp2 := writeSeq (List.replicate new_capacity default) 0 (v.buffer.take v.size)
    { buffer := temp2.set v.size item, size := v.size + 1, capacity := new_capacity
      gen := v.gen + 1 }
  else
    { v with buffer := v.buffer.set v.size item, size := v.size + 1 }

/-- `Erase(ConstIterator pos)` with `index = std::distance(cbegin(), pos)`:
allocates a same-capacity block, `std::move`s `[0, index)` and then
`[index + 1, size_)` (shifted one slot left) into it, swaps it in and does
`--size_`.  The decrement is `size_t` arithmetic, hence the explicit
`% 2 ^ 64` (for `size_ = 0`, reachable via `PopBack` on an empty vector
with a non-null buffer, it wraps to `2 ^ 64 - 1`).  When
`index + 1 > size_` the second `std::move` gets a reversed range
(undefined behaviour); the model transfers `size_ - (index + 1)`
truncated-at-zero elements, as the host's random-access `std::move` does.
Returns the new state and the returned pointer `&items_[index]`. -/
def Erase (v : SV α) (index : Nat) : SV α × Handle :=
  let temp := writeSeq (List.replicate v.capacity default) 0 (v.buffer.take index)
  let temp2 := writeSeq temp index ((v.buffer.drop (index + 1)).take (v.size - (index + 1)))
  ({ buffer := temp2, size := (v.size + (2 ^ 64 - 1)) % 2 ^ 64, capacity := v.capacity
     gen := v.gen + 1 },
   ⟨v.gen + 1, index⟩)

/-- `PopBack()`: `assert(items_)` — the assertion checks only that the
raw pointer is non-null (`buffer ≠ []`), *not* that the vector is
non-empty — then calls `Erase(end())`, i.e. `Erase` at `index = size_`.
`none` models the assertion failing (program termination). -/
def PopBack (v : SV α) : Option (SV α) :=
  if v.buffer.isEmpty then none
  else some (Erase v v.size).1

/-- `Reserve(new_capacity)`: if `new_capacity > capacity_`, allocate a
block of `new_capacity` slots, `fill` all of it with default values,
`std::move` the `size_` live elements in, swap, update `capacity_`;
otherwise do nothing. -/
def Reserve (v : SV α) (new_capacity : Nat) : SV α :=
  if new_capacity > v.capacity then
    let temp := fillRange (List.replicate new_capacity default) 0 new_capacity default
    let temp2 := writeSeq temp 0 (v.buffer.take v.size)
    { buffer := temp2, size := v.size, capacity := new_capacity, gen := v.gen + 1 }
  else v

/-- `operator==`: `std::equal(lhs.begin(), lhs.end(), rhs.begin())` —
compares the `lhs.size_` live elements of `lhs` with the first
`lhs.size_` slots of `rhs`'s buffer.  There is no size check.  (When
`lhs.size_` exceeds `rhs`'s allocation the C++ reads out of bounds; the
claims below only evaluate it on inputs where the reads are in range.) -/
def svEq [DecidableEq α] (lhs rhs : SV α) : Bool :=
  decide (lhs.buffer.take lhs.size = rhs.buffer.take lhs.size)

/-- `operator!=`: `!std::equal(lhs.begin(), lhs.end(), rhs.begin())`. -/
def svNe [DecidableEq α] (lhs rhs : SV α) : Bool :=
  !(decide (lhs.buffer.take lhs.size = rhs.buffer.take lhs.size))

/-- `PushBack`ing (move overload) the value `1` onto an initially
default-constructed `SimpleVector<int>`, `n` times. -/
def pushBackN : Nat → SV Int
  | 0 => emptySV
  | n + 1 => pushBackMove (pushBackN n) 1

/-! ## Helper lemmas about the buffer primitives and single operations -/

theorem writeSeq_length (src : List α) : ∀ (buf : List α) (d : Nat),
    (writeSeq buf d src).length = buf.length := by
  induction src with
  | nil => intro buf d; rfl
  | cons x xs ih =>
    intro buf d
    rw [writeSeq, ih, List.length_set]

theorem writeSeq_eq (src : List α) : ∀ (buf : List α) (d : Nat),
    d + src.length ≤ buf.length →
    writeSeq buf d src = buf.take d ++ src ++ buf.drop (d + src.length) := by
  induction src with
  | nil => intro buf d _; simp [writeSeq]
  | cons x xs ih =>
    intro buf d h
    have hxs : xs.length + 1 = (x :: xs).length := by simp
    have hd : d < buf.length := by simp at h; omega
    have hlen : d + 1 + xs.length ≤ (buf.set d x).length := by
      rw [List.length_set]; simp at h; omega
    rw [writeSeq, ih _ _ hlen, List.set_eq_take_cons_drop x hd]
    have htd : (buf.take d).length = d := by rw [List.length_take]; omega
    rw [List.take_append_eq_append_take, List.drop_append_eq_append_drop]
    rw [htd, List.take_take]
    have h1 : min (d + 1) d = d := by omega
    have h2 : d + 1 - d = 1 := by omega
    have h3 : d + 1 + xs.length - d = xs.length + 1 := by omega
    rw [h1, h2, h3]
    rw [List.drop_eq_nil_of_le (by omega : (buf.take d).length ≤ d + 1 + xs.length)]
    simp [List.drop_drop, List.append_assoc]
    congr 1
    omega

theorem writeSeq_zero (src buf : List α) (h : src.length ≤ buf.length) :
    writeSeq buf 0 src = src ++ buf.drop src.length := by
  have h0 := writeSeq_eq src buf 0 (by omega)
  simpa using h0

theorem set_take_succ (buf : List α) (n : Nat) (x : α) (h : n < buf.length) :
    (buf.set n x).take (n + 1) = buf.take n ++ [x] := by
  rw [List.set_eq_take_cons_drop x h, List.take_append_eq_append_take]
  have htd : (buf.take n).length = n := by rw [List.length_take]; omega
  rw [htd, List.take_take]
  have h1 : min (n + 1) n = n := by omega
  have h2 : n + 1 - n = 1 := by omega
  rw [h1, h2]
  simp

theorem shift_set_take (buf : List α) (index size : Nat) (value : α)
    (h1 : index ≤ size) (h2 : size < buf.length) :
    ((writeSeq buf (index + 1) ((buf.drop index).take (size - index))).set index value).take (size + 1)
      = buf.take index ++ value :: (buf.drop index).take (size - index) := by
  have hmid : ((buf.drop index).take (size - index)).length = size - index := by
    rw [List.length_take, List.length_drop]; omega
  set mid := (buf.drop index).take (size - index) with hmiddef
  have hpre : index + 1 + mid.length ≤ buf.length := by rw [hmid]; omega
  rw [writeSeq_eq _ _ _ hpre]
  set A := buf.take (index + 1) with hAdef
  set D := buf.drop (index + 1 + mid.length) with hDdef
  have htd : A.length = index + 1 := by rw [hAdef, List.length_take]; omega
  have hset : index < (A ++ mid ++ D).length := by simp [htd]; omega
  rw [List.set_eq_take_cons_drop value hset]
  have p1 : (A ++ mid ++ D).take index = buf.take index := by
    rw [List.take_append_eq_append_take]
    have hl : (A ++ mid).length = index + 1 + mid.length := by simp [htd]
    rw [hl]
    have e0 : index - (index + 1 + mid.length) = 0 := by omega
    rw [e0, List.take_zero, List.append_nil]
    rw [List.take_append_eq_append_take, htd]
    have e1 : index - (index + 1) = 0 := by omega
    rw [e1, List.take_zero, List.append_nil, hAdef, List.take_take]
    congr 1
    omega
  have p2 : (A ++ mid ++ D).drop (index + 1) = mid ++ D := by
    rw [List.drop_append_eq_append_drop]
    have hl : (A ++ mid).length = index + 1 + mid.length := by simp [htd]
    rw [hl]
    have e0 : index + 1 - (index + 1 + mid.length) = 0 := by omega
    rw [e0, List.drop_zero]
    rw [List.drop_append_eq_append_drop, htd]
    have e1 : index + 1 - (index + 1) = 0 := by omega
    rw [e1, List.drop_zero]
    rw [List.drop_eq_nil_of_le (le_of_eq htd), List.nil_append]
  rw [p1, p2]
  rw [List.take_append_eq_append_take]
  have htd2 : (buf.take index).length = index := by rw [List.length_take]; omega
  rw [htd2, List.take_take]
  have e2 : min (size + 1) index = index := by omega
  rw [e2]
  have e3 : size + 1 - index = (size - index) + 1 := by omega
  rw [e3, List.take_succ_cons]
  rw [List.take_append_eq_append_take, hmid]
  have e4 : size - index - (size - index) = 0 := by omega
  rw [e4, List.take_zero, List.append_nil]
  rw [← hmid, List.take_length]

theorem realloc_insert_take (buf : List α) (index size ncap : Nat) (d value : α)
    (h1 : index ≤ size) (h2 : size ≤ buf.length) (h3 : size < ncap) :
    (writeSeq ((writeSeq (List.replicate ncap d) 0 (buf.take index)).set index value)
        (index + 1) ((buf.drop index).take (size - index))).take (size + 1)
      = buf.take index ++ value :: (buf.drop index).take (size - index) := by
  have htk : (buf.take index).length = index := by rw [List.length_take]; omega
  have hmid : ((buf.drop index).take (size - index)).length = size - index := by
    rw [List.length_take, List.length_drop]; omega
  set mid := (buf.drop index).take (size - index) with hmiddef
  have step1 : writeSeq (List.replicate ncap d) 0 (buf.take index)
      = buf.take index ++ List.replicate (ncap - index) d := by
    rw [writeSeq_zero _ _ (by rw [htk, List.length_replicate]; omega), htk,
      List.drop_replicate]
  rw [step1]
  have hlen1 : (buf.take index ++ List.replicate (ncap - index) d).length = ncap := by
    simp [htk]; omega
  have hset : index < (buf.take index ++ List.replicate (ncap - index) d).length := by
    rw [hlen1]; omega
  rw [List.set_eq_take_cons_drop value hset]
  have p1 : (buf.take index ++ List.replicate (ncap - index) d).take index = buf.take index := by
    rw [List.take_append_eq_append_take, htk]
    have e0 : index - index = 0 := by omega
    rw [e0, List.take_zero, List.append_nil, List.take_take]
    congr 1
    omega
  have p2 : (buf.take index ++ List.replicate (ncap - index) d).drop (index + 1)
      = List.replicate (ncap - index - 1) d := by
    rw [List.drop_append_eq_append_drop, htk]
    rw [List.drop_eq_nil_of_le (by rw [htk]; omega : (buf.take index).length ≤ index + 1)]
    have e0 : index + 1 - index = 1 := by omega
    rw [e0, List.nil_append, List.drop_replicate]
  rw [p1, p2]
  have hpre : index + 1 + mid.length
      ≤ (buf.take index ++ value :: List.replicate (ncap - index - 1) d).length := by
    simp [htk, hmid]; omega
  rw [writeSeq_eq _ _ _ hpre]
  have p3 : (buf.take index ++ value :: List.replicate (ncap - index - 1) d).take (index + 1)
      = buf.take index ++ [value] := by
    rw [List.take_append_eq_append_take, htk, List.take_take]
    have e1 : min (index + 1) index = index := by omega
    have e2 : index + 1 - index = 1 := by omega
    rw [e1, e2]
    simp
  rw [p3]
  have hbm : ((buf.take index ++ [value]) ++ mid).length = size + 1 := by
    simp [htk, hmid]; omega
  rw [List.take_append_eq_append_take, hbm]
  have e3 : size + 1 - (size + 1) = 0 := by omega
  rw [e3, List.take_zero, List.append_nil, ← hbm, List.take_length]
  simp

theorem fillRange_replicate (n : Nat) (d : α) :
    fillRange (List.replicate n d) 0 n d = List.replicate n d := by
  rw [fillRange, Nat.sub_zero,
    writeSeq_zero _ _ (by rw [List.length_replicate])]
  rw [List.length_replicate, List.drop_replicate]
  simp

theorem take_of_writeSeq_zero (buf : List α) (size cap : Nat) (d : α)
    (hsc : size ≤ cap) (hsl : size ≤ buf.length) :
    (writeSeq (List.replicate cap d) 0 (buf.take size)).take size = buf.take size := by
  have htk : (buf.take size).length = size := by rw [List.length_take]; omega
  rw [writeSeq_zero _ _ (by rw [htk, List.length_replicate]; omega)]
  rw [List.take_append_eq_append_take, htk, List.take_take]
  have e1 : min size size = size := by omega
  have e2 : size - size = 0 := by omega
  rw [e1, e2, List.take_zero, List.append_nil]

theorem grow_push_take (buf : List α) (size ncap : Nat) (d x : α)
    (h2 : size ≤ buf.length) (h3 : size < ncap) :
    ((writeSeq (List.replicate ncap d) 0 (buf.take size)).set size x).take (size + 1)
      = buf.take size ++ [x] := by
  have hlen : (writeSeq (List.replicate ncap d) 0 (buf.take size)).length = ncap := by
    rw [writeSeq_length, List.length_replicate]
  rw [set_take_succ _ _ _ (by rw [hlen]; omega)]
  rw [take_of_writeSeq_zero _ _ _ _ (by omega) h2]

theorem pushBackMove_spec (v : SV α) (x : α) (h : Wf v) :
    (pushBackMove v x).size = v.size + 1 ∧
    live (pushBackMove v x) = live v ++ [x] ∧
    (v.size + 1 > v.capacity →
      (pushBackMove v x).capacity = max (v.size + 1) (v.capacity * 2)) ∧
    (v.size + 1 ≤ v.capacity → (pushBackMove v x).capacity = v.capacity) ∧
    Wf (pushBackMove v x) := by
  obtain ⟨hsc, hcl⟩ := h
  by_cases hg : v.size + 1 > v.capacity
  · refine ⟨?_, ?_, ?_, ?_, ?_, ?_⟩
    · simp [pushBackMove, if_pos hg]
    · simp only [pushBackMove, if_pos hg, live]
      exact grow_push_take v.buffer v.size _ default x (by omega) (by omega)
    · intro _
      simp [pushBackMove, if_pos hg]
    · intro hc
      exact absurd hc (by omega)
    · simp only [pushBackMove, if_pos hg]
      omega
    · simp only [pushBackMove, if_pos hg, List.length_set, writeSeq_length,
        List.length_replicate]
      omega
  · refine ⟨?_, ?_, ?_, ?_, ?_, ?_⟩
    · simp [pushBackMove, if_neg hg]
    · simp only [pushBackMove, if_neg hg, live]
      exact set_take_succ v.buffer v.size x (by omega)
    · intro hc
      exact absurd hc hg
    · intro _
      simp [pushBackMove, if_neg hg]
    · simp only [pushBackMove, if_neg hg]
      omega
    · simp only [pushBackMove, if_neg hg, List.length_set]
      omega

theorem pushBackCopy_spec (v : SV α) (x : α) (h : Wf v) :
    (pushBackCopy v x).size = v.size + 1 ∧
    live (pushBackCopy v x) = live v ++ [x] ∧
    (v.size + 1 > v.capacity →
      (pushBackCopy v x).capacity = max (v.size + 1) (v.capacity * 2)) ∧
    (v.size + 1 ≤ v.capacity → (pushBackCopy v x).capacity = v.capacity) ∧
    Wf (pushBackCopy v x) := by
  obtain ⟨hsc, hcl⟩ := h
  by_cases hg : v.size + 1 > v.capacity
  · refine ⟨?_, ?_, ?_, ?_, ?_, ?_⟩
    · simp [pushBackCopy, if_pos hg]
    · simp only [pushBackCopy, if_pos hg, live, fillRange_replicate]
      exact grow_push_take v.buffer v.size _ default x (by omega) (by omega)
    · intro _
      simp [pushBackCopy, if_pos hg]
    · intro hc
      exact absurd hc (by omega)
    · simp only [pushBackCopy, if_pos hg]
      omega
    · simp only [pushBackCopy, if_pos hg, fillRange_replicate, List.length_set,
        writeSeq_length, List.length_replicate]
      omega
  · refine ⟨?_, ?_, ?_, ?_, ?_, ?_⟩
    · simp [pushBackCopy, if_neg hg]
    · simp only [pushBackCopy, if_neg hg, live]
      exact set_take_succ v.buffer v.size x (by omega)
    · intro hc
      exact absurd hc hg
    · intro _
      simp [pushBackCopy, if_neg hg]
    · simp only [pushBackCopy, if_neg hg]
      omega
    · simp only [pushBackCopy, if_neg hg, List.length_set]
      omega

theorem insertMove_spec (v : SV α) (pos : Handle) (value : α)
    (h : Wf v) (hi : pos.idx ≤ v.size) :
    (insertMove v pos value).1.size = v.size + 1 ∧
    live (insertMove v pos value).1
      = (live v).take pos.idx ++ value :: (live v).drop pos.idx ∧
    (insertMove v pos value).2 = ⟨(insertMove v pos value).1.gen, pos.idx⟩ := by
  obtain ⟨hsc, hcl⟩ := h
  by_cases hcap : v.capacity > v.size
  · refine ⟨?_, ?_, ?_⟩
    · simp [insertMove, if_pos hcap]
    · simp only [insertMove, if_pos hcap, live]
      rw [List.take_take, List.drop_take]
      have hmin : min pos.idx v.size = pos.idx := by omega
      rw [hmin]
      exact shift_set_take v.buffer pos.idx v.size value hi (by omega)
    · simp [insertMove, if_pos hcap]
  · have hncap : v.size < (if v.capacity = 0 then 1 else v.capacity * 2) := by
      by_cases h0 : v.capacity = 0
      · simp [h0]; omega
      · simp [h0]; omega
    refine ⟨?_, ?_, ?_⟩
    · simp [insertMove, if_neg hcap]
    · simp only [insertMove, if_neg hcap, live]
      rw [List.take_take, List.drop_take]
      have hmin : min pos.idx v.size = pos.idx := by omega
      rw [hmin]
      exact realloc_insert_take v.buffer pos.idx v.size _ default value hi (by omega) hncap
    · simp [insertMove, if_neg hcap]

theorem insertCopy_spec (v : SV α) (pos : Handle) (value : α)
    (h : Wf v) (hi : pos.idx ≤ v.size) :
    (insertCopy v pos value).1.size = v.size + 1 ∧
    live (insertCopy v pos value).1
      = (live v).take pos.idx ++ value :: (live v).drop pos.idx ∧
    (insertCopy v pos value).2 = pos ∧
    (v.capacity > v.size → (insertCopy v pos value).1.gen = v.gen) ∧
    (¬ v.capacity > v.size → (insertCopy v pos value).1.gen = v.gen + 1) := by
  obtain ⟨hsc, hcl⟩ := h
  by_cases hcap : v.capacity > v.size
  · refine ⟨?_, ?_, ?_, ?_, ?_⟩
    · simp [insertCopy, if_pos hcap]
    · simp only [insertCopy, if_pos hcap, live]
      rw [List.take_take, List.drop_take]
      have hmin : min pos.idx v.size = pos.idx := by omega
      rw [hmin]
      exact shift_set_take v.buffer pos.idx v.size value hi (by omega)
    · simp [insertCopy, if_pos hcap]
    · intro _
      simp [insertCopy, if_pos hcap]
    · intro hc
      exact absurd hcap hc
  · have hncap : v.size < (if v.capacity = 0 then 1 else v.capacity * 2) := by
      by_cases h0 : v.capacity = 0
      · simp [h0]; omega
      · simp [h0]; omega
    refine ⟨?_, ?_, ?_, ?_, ?_⟩
    · simp [insertCopy, if_neg hcap]
    · simp only [insertCopy, if_neg hcap, live]
      rw [List.take_take, List.drop_take]
      have hmin : min pos.idx v.size = pos.idx := by omega
      rw [hmin]
      exact realloc_insert_take v.buffer pos.idx v.size _ default value hi (by omega) hncap
    · simp [insertCopy, if_neg hcap]
    · intro hc
      exact absurd hc hcap
    · intro _
      simp [insertCopy, if_neg hcap]

/-! ## Iterated `PushBack` -/

theorem pushBackN_spec (n : Nat) :
    (pushBackN n).size = n ∧ Wf (pushBackN n) := by
  induction n with
  | zero => exact ⟨rfl, by decide⟩
  | succ n ih =>
    obtain ⟨hs, hw⟩ := ih
    obtain ⟨h1, _, _, _, hwf⟩ := pushBackMove_spec (pushBackN n) 1 hw
    rw [pushBackN]
    exact ⟨by rw [h1, hs], hwf⟩

/-! ## The claims -/

/-- C1: the spec claims copy-construction yields a vector whose capacity
equals the source's capacity.  The code allocates a block of
`other.capacity_` slots but omits `capacity_` from the constructor's
member-initializer list, so the copy reports capacity `0`: copying the
one-element vector `{5}` (size 1, capacity 1) yields size 1, the right
elements, but capacity 0. -/
theorem C1_copy_capacity_zero :
    (fromList [(5 : Int)]).capacity = 1 ∧
    (copyCtor (fromList [(5 : Int)])).size = 1 ∧
    live (copyCtor (fromList [(5 : Int)])) = [5] ∧
    (copyCtor (fromList [(5 : Int)])).capacity = 0 := by decide

/-- C2: the spec claims `0 ≤ size ≤ capacity` holds for every vector
reachable by public operations.  Copy-constructing from the one-element
vector `{5}` yields `size = 1 > capacity = 0`, violating the invariant. -/
theorem C2_invariant_violated :
    (copyCtor (fromList [(5 : Int)])).capacity
      < (copyCtor (fromList [(5 : Int)])).size := by decide

/-- C3: the spec claims `operator==` is true iff sizes and elements agree,
and that a strict shorter initial run does not compare equal to a longer
vector.  `operator==` is `std::equal(lhs.begin(), lhs.end(), rhs.begin())`
with no size check, so `{1} == {1, 2}` evaluates to `true` although the
sizes differ.  (`operator!=` is literally the negation of the same
`std::equal` call.) -/
theorem C3_eq_ignores_size :
    svEq (fromList [(1 : Int)]) (fromList [(1 : Int), 2]) = true ∧
    (fromList [(1 : Int)]).size ≠ (fromList [(1 : Int), 2]).size ∧
    svNe (fromList [(1 : Int)]) (fromList [(1 : Int), 2])
      = !svEq (fromList [(1 : Int)]) (fromList [(1 : Int), 2]) := by decide

/-- C4 counterexample: the claim says move-assignment leaves the source at
size 0, but `operator=(SimpleVector&&)` never touches `rhs.size_`:
move-assigning from the one-element vector `{5}` leaves the source's size
at 1. -/
theorem C4_counterexample :
    ¬ (moveAssign (emptySV : SV Int) (fromList [(5 : Int)])).2.size = 0 := by
  decide

/-- C4 (amended): move-construction yields a destination with the source's
size, capacity and elements in order, leaves the source at size 0 and
capacity 0, and copies no element; move-assignment yields a destination
with the source's size, capacity and elements in order and copies no
element, but leaves the source's `size_` and `capacity_` unchanged. -/
theorem C4_move_semantics (src lhs : SV Int) (h : Wf src) :
    (moveCtor src).1.size = src.size ∧
    (moveCtor src).1.capacity = src.capacity ∧
    live (moveCtor src).1 = live src ∧
    (moveCtor src).2.size = 0 ∧
    (moveCtor src).2.capacity = 0 ∧
    moveCtorElemCopies = 0 ∧
    (moveAssign lhs src).1.size = src.size ∧
    (moveAssign lhs src).1.capacity = src.capacity ∧
    live (moveAssign lhs src).1 = live src ∧
    (moveAssign lhs src).2.size = src.size ∧
    (moveAssign lhs src).2.capacity = src.capacity ∧
    moveAssignElemCopies = 0 := by
  obtain ⟨hsc, hcl⟩ := h
  refine ⟨rfl, rfl, rfl, rfl, rfl, rfl, rfl, rfl, ?_, rfl, rfl, rfl⟩
  simp only [moveAssign, live]
  exact take_of_writeSeq_zero src.buffer src.size src.capacity default hsc (by omega)

/-- C4 witness: the amended move theorem applied to the concrete source
`{5}` (size 1, capacity 1). -/
theorem C4_witness :
    Wf (fromList [(5 : Int)]) ∧ (moveCtor (fromList [(5 : Int)])).2.size = 0 :=
  ⟨by decide, (C4_move_semantics (fromList [(5 : Int)]) emptySV (by decide)).2.2.2.1⟩

/-- C5: the spec claims `Resize(n)` with `n ≤ size` only changes `size`
(elements and capacity unchanged), and that growing within capacity fills
exactly `[size, n)`.  Because the three cases are consecutive `if`s and
the fill's end pointer is `begin() + size_ + new_size`, `Resize(1)` on
`{1, 2}` also overwrites the vacated slot 1 with the default value, and
`Resize(2)` on `{1, 2}` (a should-be no-op) attempts writes at slots 2
and 3 of the 2-slot allocation — past its end. -/
theorem C5_resize_bug :
    (fromList [(1 : Int), 2]).buffer = [1, 2] ∧
    (Resize (fromList [(1 : Int), 2]) 1).buffer = [1, 0] ∧
    (Resize (fromList [(1 : Int), 2]) 1).size = 1 ∧
    resizeWrites (fromList [(1 : Int), 2]) 2 = [(2, 2), (3, 2)] ∧
    (fromList [(1 : Int), 2]).buffer.length = 2 := by decide

/-- C6 counterexample: the claim says the returned position handle refers
to the inserted element in the vector's current buffer.  Copy-inserting
into the full vector `{7}` (size = capacity = 1) reallocates
(current generation becomes 1) yet returns the incoming `pos` pointer,
whose generation 0 identifies the discarded block. -/
theorem C6_counterexample :
    (fromList [(7 : Int)]).gen = 0 ∧
    (insertCopy (fromList [(7 : Int)]) ⟨0, 0⟩ 9).1.gen = 1 ∧
    (insertCopy (fromList [(7 : Int)]) ⟨0, 0⟩ 9).2.gen = 0 := by decide

/-- C6 (amended): for `pos` in `[begin, end]`, both `Insert` overloads
increase the size by exactly 1, place the value at the requested index and
preserve the relative order of the other elements; the moving overload
returns a handle to the inserted element in the current buffer, while the
copying overload returns the incoming `pos` handle, which refers to the
inserted element in the current buffer when no reallocation occurred but
into the discarded pre-insert buffer after a reallocation. -/
theorem C6_insert_amended (v : SV Int) (pos : Handle) (value : Int)
    (h : Wf v) (hg : pos.gen = v.gen) (hi : pos.idx ≤ v.size) :
    (insertMove v pos value).1.size = v.size + 1 ∧
    live (insertMove v pos value).1
      = (live v).take pos.idx ++ value :: (live v).drop pos.idx ∧
    (insertCopy v pos value).1.size = v.size + 1 ∧
    live (insertCopy v pos value).1
      = (live v).take pos.idx ++ value :: (live v).drop pos.idx ∧
    (insertMove v pos value).2 = ⟨(insertMove v pos value).1.gen, pos.idx⟩ ∧
    (insertCopy v pos value).2 = pos ∧
    (v.capacity > v.size →
      (insertCopy v pos value).2.gen = (insertCopy v pos value).1.gen) ∧
    (¬ v.capacity > v.size →
      (insertCopy v pos value).1.gen = v.gen + 1 ∧
      (insertCopy v pos value).2.gen = v.gen) := by
  obtain ⟨hs1, hl1, hh1⟩ := insertMove_spec v pos value h hi
  obtain ⟨hs2, hl2, hh2, hgpos, hgneg⟩ := insertCopy_spec v pos value h hi
  refine ⟨hs1, hl1, hs2, hl2, hh1, hh2, ?_, ?_⟩
  · intro hc
    rw [hh2, hg, hgpos hc]
  · intro hc
    exact ⟨hgneg hc, by rw [hh2, hg]⟩

/-- C6 witness: the amended insert theorem applied to inserting 9 at the
front of the full vector `{7}`. -/
theorem C6_witness :
    Wf (fromList [(7 : Int)]) ∧
    (insertMove (fromList [(7 : Int)]) ⟨0, 0⟩ 9).1.size
      = (fromList [(7 : Int)]).size + 1 :=
  ⟨by decide,
   (C6_insert_amended (fromList [(7 : Int)]) ⟨0, 0⟩ 9 (by decide) (by decide)
      (by decide)).1⟩

/-- C7: whenever an append needs more room than the current capacity, the
new capacity is `max(size + 1, capacity * 2)` (so a zero-capacity vector
growing by one goes to capacity 1), otherwise the capacity is unchanged;
both `PushBack` overloads append the element, and pushing `n` times from
an empty vector yields size `n` with `capacity ≥ size` after every
operation. -/
theorem C7_growth_policy (v : SV Int) (x : Int) (n : Nat) (h : Wf v) :
    (v.size + 1 > v.capacity →
      (pushBackCopy v x).capacity = max (v.size + 1) (v.capacity * 2) ∧
      (pushBackMove v x).capacity = max (v.size + 1) (v.capacity * 2)) ∧
    (v.size + 1 ≤ v.capacity →
      (pushBackCopy v x).capacity = v.capacity ∧
      (pushBackMove v x).capacity = v.capacity) ∧
    (v.capacity = 0 →
      (pushBackCopy v x).capacity = 1 ∧ (pushBackMove v x).capacity = 1) ∧
    (pushBackCopy v x).size = v.size + 1 ∧
    (pushBackMove v x).size = v.size + 1 ∧
    live (pushBackCopy v x) = live v ++ [x] ∧
    live (pushBackMove v x) = live v ++ [x] ∧
    (pushBackCopy v x).size ≤ (pushBackCopy v x).capacity ∧
    (pushBackMove v x).size ≤ (pushBackMove v x).capacity ∧
    (pushBackN n).size = n ∧
    n ≤ (pushBackN n).capacity := by
  obtain ⟨hc1, hc2, hc3, hc4, hc5⟩ := pushBackCopy_spec v x h
  obtain ⟨hm1, hm2, hm3, hm4, hm5⟩ := pushBackMove_spec v x h
  obtain ⟨hn1, hn2⟩ := pushBackN_spec n
  have hsz : v.size ≤ v.capacity := h.1
  refine ⟨fun hgt => ⟨hc3 hgt, hm3 hgt⟩, fun hle => ⟨hc4 hle, hm4 hle⟩, ?_,
    hc1, hm1, hc2, hm2, hc5.1, hm5.1, hn1, ?_⟩
  · intro h0
    have hz : v.size = 0 := by omega
    constructor
    · rw [hc3 (by omega), hz, h0]
      decide
    · rw [hm3 (by omega), hz, h0]
      decide
  · have h1 := hn2.1
    omega

/-- C7 witness: the growth-policy theorem applied to the concrete vector
`{5}` (size = capacity = 1), element 7 and three pushes. -/
theorem C7_witness :
    Wf (fromList [(5 : Int)]) ∧
    (pushBackCopy (fromList [(5 : Int)]) 7).size = (fromList [(5 : Int)]).size + 1 :=
  ⟨by decide, (C7_growth_policy (fromList [(5 : Int)]) 7 3 (by decide)).2.2.2.1⟩

/-- C8: the checked accessor `At(i)` fails with the out-of-range error
exactly when `i ≥ size` (the capacity plays no role), and on every call —
in particular on the throwing path — the vector's size, capacity and
elements are unchanged. -/
theorem C8_at_bounds (v : SV Int) (i : Nat) :
    ((At v i).1 = Except.error "index >= size" ↔ v.size ≤ i) ∧
    (At v i).2 = v := by
  by_cases hge : i ≥ v.size
  · simp [At, hge]
  · simp [At, hge]

/-- C9: the spec claims `PopBack` on any empty vector (size 0) is an
immediate assertion failure, whatever its capacity.  The code's
`assert(items_)` only checks that the raw pointer is non-null: on a
default-constructed vector (null buffer) the assertion does fire, but on
the cleared one-element vector (size 0, capacity 1, non-null buffer) it
passes and execution continues into `Erase(end())`. -/
theorem C9_popback_assert_gap :
    (PopBack (emptySV : SV Int)).isSome = false ∧
    (Clear (pushBackMove (emptySV : SV Int) 1)).size = 0 ∧
    (Clear (pushBackMove (emptySV : SV Int) 1)).capacity = 1 ∧
    (PopBack (Clear (pushBackMove (emptySV : SV Int) 1))).isSome = true := by
  decide

/-- C10: the spec claims no operation writes past the end of an
allocation.  `Resize(2)` on the vector `{1, 2}` (size = capacity =
allocated length 2) performs its step-2 fill at slots 2 and 3 of the
2-slot block: every one of those writes targets an index `≥` the
allocated length of the block being written. -/
theorem C10_resize_oob :
    resizeWrites (fromList [(1 : Int), 2]) 2 = [(2, 2), (3, 2)] ∧
    (resizeWrites (fromList [(1 : Int), 2]) 2).all
      (fun p => decide (p.2 ≤ p.1)) = true := by decide

end SimpleVec
